import Mathlib

/-!
Verification development for the 4:3-to-16:9 video converter script
(`4.3.py`).  The script is modelled by a shallow embedding: paths and
console text are `List Char`; the outcomes of every external effect
(filesystem queries, the `ffmpeg -version` probe, the download /
extraction / rename / delete steps, and the conversion child process)
are supplied by an `Env` record, and each modelled function returns its
Python return value together with a trace of the externally visible
events it performed.  A Python exception that a function does not catch
is modelled by an `Except.error` result; `try`/`except` clauses of the
source are translated by matching on the exception constructor exactly
as the `except` lines of the source select exception classes.
-/

/-- Quotation-mark characters, written via code points. -/
def dquote : Char := Char.ofNat 34

/-- The single-quote character, via its code point. -/
def squote : Char := Char.ofNat 39

/-- Python exceptions, partitioned exactly as the `except` clauses of the
source distinguish them: `subprocess.CalledProcessError`,
`FileNotFoundError`, and every other `Exception` (with a message). -/
inductive PyExn where
  | calledProcessError
  | fileNotFoundError
  | otherError (msg : List Char)
deriving DecidableEq

/-- Result of a completed `subprocess.run`: the exit status of the child
and its captured standard-error text (stderr piped as text). -/
structure RunResult where
  returncode : Int
  stderr : List Char
deriving DecidableEq

/-- Externally visible events recorded while the modelled functions run:
the `ffmpeg -version` probe, the existence check of the local install
path, the `urlretrieve` network fetch, the conversion child process with
its full argument vector, and the console lines the claims talk about.
Purely cosmetic banner prints of the source are not traced. -/
inductive Event where
  | versionQueryRun
  | localLookup
  | downloadAttempt
  | convertRun (cmd : List (List Char))
  | printed (s : List Char)
deriving DecidableEq

instance {ε α : Type} [DecidableEq ε] [DecidableEq α] : DecidableEq (Except ε α) :=
  fun a b =>
    match a, b with
    | .ok x, .ok y => decidable_of_iff (x = y) (by simp)
    | .error x, .error y => decidable_of_iff (x = y) (by simp)
    | .ok _, .error _ => isFalse (by simp)
    | .error _, .ok _ => isFalse (by simp)

/-- The ambient world the script runs in.  `pathExists` is the filesystem
at the start of the run; `pathExistsAfterDownload` is the filesystem as
re-observed by `check_ffmpeg` after `download_ffmpeg` has performed its
side effects.  Each `Except` field is the outcome of the corresponding
external call: `.ok` if the call returns, `.error e` if it raises `e`.
`versionQuery` is the outcome of the `subprocess.run` version probe
(exit status, or a launch exception). -/
structure Env where
  platform : List Char
  scriptDir : List Char
  pathExists : List Char → Bool
  pathExistsAfterDownload : List Char → Bool
  versionQuery : Except PyExn Int
  runConvert : List (List Char) → Except PyExn RunResult
  downloadResult : Except PyExn Unit
  extractResult : Except PyExn Unit
  listdir : List (List Char)
  isdir : List Char → Bool
  rmtreeResult : Except PyExn Unit
  renameResult : Except PyExn Unit
  removeResult : Except PyExn Unit

/-- Comparison of `platform.system()` against the literal Windows. -/
def windowsEnv (env : Env) : Bool := env.platform == "Windows".data

/-- The path separator `os.path` uses on the host platform. -/
def sepc (env : Env) : Char := if windowsEnv env then '\\' else '/'

/-- Model of `os.path.join` for one relative, driveless component: if `b`
is absolute it wins; otherwise a separator is inserted unless `a` is
empty or already ends with one. -/
def pjoin (sep : Char) (a b : List Char) : List Char :=
  if b.head? = some sep then b
  else if a = [] ∨ a.getLast? = some sep then a ++ b
  else a ++ sep :: b

/-- Index of the last occurrence of `c` in `s`, or `-1` (Python
`str.rfind`). -/
def rfind (c : Char) : List Char → Int
  | [] => -1
  | a :: s => if 0 ≤ rfind c s then rfind c s + 1 else if a = c then 0 else -1

/-- The body of `genericpath._splitext` once the separator index is
known: split the extension at the last `extsep`, unless it lies before
the last separator or every base-name character in front of it is an
`extsep` (leading dots carry no extension).  The `while` loop of the
source is the `any` over the characters strictly between the separator
and the candidate dot. -/
def splitextCore (extsep : Char) (sepIndex : Int) (p : List Char) :
    List Char × List Char :=
  let dotIndex : Int := rfind extsep p
  if sepIndex < dotIndex then
    if ((p.drop (sepIndex + 1).toNat).take (dotIndex - sepIndex - 1).toNat).any
        (fun c => c != extsep) then
      (p.take dotIndex.toNat, p.drop dotIndex.toNat)
    else (p, [])
  else (p, [])

/-- Model of `genericpath._splitext(p, sep, altsep, extsep)`: the
separator index is the rightmost occurrence of either separator. -/
def splitextGen (sep : Char) (altsep : Option Char) (extsep : Char)
    (p : List Char) : List Char × List Char :=
  splitextCore extsep
    (match altsep with
     | none => rfind sep p
     | some a => max (rfind sep p) (rfind a p)) p

/-- Model of `os.path.splitext`: on Windows (`ntpath`) the separator is
the backslash with the slash as `altsep`; elsewhere (`posixpath`) the
slash alone; `extsep` is the dot on both. -/
def os_splitext (windows : Bool) (p : List Char) : List Char × List Char :=
  if windows then splitextGen '\\' (some '/') '.' p
  else splitextGen '/' none '.' p

/-- The output path `convert_video` computes: split off the extension
with `os.path.splitext` and rebuild the path with the literal text
_16-9 interposed between root and extension. -/
def output_path (windows : Bool) (p : List Char) : List Char :=
  (os_splitext windows p).1 ++ "_16-9".data ++ (os_splitext windows p).2

/-- The install directory: `os.path.join` of the script directory and the
name ffmpeg. -/
def ffmpeg_dir (env : Env) : List Char :=
  pjoin (sepc env) env.scriptDir "ffmpeg".data

/-- Model of `get_ffmpeg_path()`: the path ffmpeg/bin/ffmpeg.exe under
the script directory on Windows, ffmpeg/ffmpeg elsewhere. -/
def get_ffmpeg_path (env : Env) : List Char :=
  if windowsEnv env then
    pjoin (sepc env) (pjoin (sepc env) (ffmpeg_dir env) "bin".data) "ffmpeg.exe".data
  else
    pjoin (sepc env) (ffmpeg_dir env) "ffmpeg".data

/-- Model of `f.startswith(pre)` for lists of characters. -/
def startsWith : List Char → List Char → Bool
  | [], _ => true
  | _ :: _, [] => false
  | a :: pre, b :: s => a == b && startsWith pre s

/-- The list comprehension of `download_ffmpeg`: every entry of
`os.listdir(script_dir)` that starts with the text ffmpeg- and is a
directory when joined below the script directory. -/
def extracted_folders (env : Env) : List (List Char) :=
  env.listdir.filter
    (fun f => startsWith "ffmpeg-".data f && env.isdir (pjoin (sepc env) env.scriptDir f))

/-- Model of `download_ffmpeg()`.  On Windows it fetches the archive, extracts it,
renames the single `ffmpeg-*` directory (if one was found — the source
silently skips the rename otherwise), deletes the archive and returns
`True`; any exception in that block is caught by `except Exception` and
turns into `False`.  On other platforms it returns `False` without any
network access. -/
def download_ffmpeg (env : Env) : Bool × List Event :=
  if windowsEnv env then
    match env.downloadResult with
    | .error _ => (false, [.downloadAttempt])
    | .ok _ =>
      match env.extractResult with
      | .error _ => (false, [.downloadAttempt])
      | .ok _ =>
        let step : Except PyExn Unit :=
          if extracted_folders env = [] then .ok ()
          else
            match (if env.pathExists (ffmpeg_dir env) then env.rmtreeResult else .ok ()) with
            | .error e => .error e
            | .ok _ => env.renameResult
        match step with
        | .error _ => (false, [.downloadAttempt])
        | .ok _ =>
          match env.removeResult with
          | .error _ => (false, [.downloadAttempt])
          | .ok _ => (true, [.downloadAttempt])
  else (false, [])

/-- The part of `check_ffmpeg()` after the system-path probe has failed:
the local-install existence check, then the download fallback with its
re-check of the install path. -/
def check_local (env : Env) : Except PyExn (Option (List Char)) × List Event :=
  let lf := get_ffmpeg_path env
  if env.pathExists lf then (.ok (some lf), [.localLookup])
  else
    match download_ffmpeg env with
    | (true, evs) =>
      if env.pathExistsAfterDownload lf then
        (.ok (some lf), .localLookup :: evs ++ [.localLookup])
      else (.ok none, .localLookup :: evs ++ [.localLookup])
    | (false, evs) => (.ok none, .localLookup :: evs)

/-- Model of `check_ffmpeg()`.  The version probe run with check=True
returns only when the exit status is zero, in which case the bare name
is used; a nonzero status (`CalledProcessError`) or a launch
`FileNotFoundError` falls through to the local/download logic; any other
exception is NOT named by the `except` clause and propagates. -/
def check_ffmpeg (env : Env) : Except PyExn (Option (List Char)) × List Event :=
  match env.versionQuery with
  | .ok rc =>
    if rc = 0 then (.ok (some "ffmpeg".data), [.versionQueryRun])
    else ((check_local env).1, .versionQueryRun :: (check_local env).2)
  | .error .calledProcessError =>
    ((check_local env).1, .versionQueryRun :: (check_local env).2)
  | .error .fileNotFoundError =>
    ((check_local env).1, .versionQueryRun :: (check_local env).2)
  | .error (.otherError m) => (.error (.otherError m), [.versionQueryRun])

/-- The not-found error line printed by `convert_video`. -/
def notFoundMsg (p : List Char) : List Char := "Error: File not found: ".data ++ p

/-- The fixed ffmpeg argument vector built by `convert_video`. -/
def mkCommand (exe inp outp : List Char) : List (List Char) :=
  [exe, "-i".data, inp, "-vf".data, "scale=1920:1080,setsar=1".data,
   "-c:a".data, "copy".data, "-y".data, outp]

/-- The `try` block of `convert_video` (the child-process run): exit
status 0 reports success and prints the output path; a nonzero status
reports failure and prints the captured stderr verbatim; any exception
is caught by `except Exception` and reported as failure. -/
def run_conversion (env : Env) (exe input_path : List Char) :
    Except PyExn Bool × List Event :=
  let outp := output_path (windowsEnv env) input_path
  let cmd := mkCommand exe input_path outp
  match env.runConvert cmd with
  | .error _ =>
    (.ok false, [.convertRun cmd, .printed "Error during conversion".data])
  | .ok r =>
    if r.returncode = 0 then
      (.ok true, [.convertRun cmd,
        .printed "Success! Converted video saved as:".data,
        .printed ("  ".data ++ outp)])
    else
      (.ok false, [.convertRun cmd,
        .printed "Conversion failed!".data,
        .printed "Error details:".data,
        .printed r.stderr])

/-- Model of `convert_video(input_path)`: existence check, tool resolution, output
path derivation, child-process run; only an exception escaping
`check_ffmpeg` can propagate out of this function. -/
def convert_video (env : Env) (input_path : List Char) :
    Except PyExn Bool × List Event :=
  if env.pathExists input_path = false then
    (.ok false, [.printed (notFoundMsg input_path)])
  else
    match check_ffmpeg env with
    | (.error e, evs) => (.error e, evs)
    | (.ok none, evs) =>
      (.ok false, evs ++ [.printed "ERROR: Could not get ffmpeg!".data])
    | (.ok (some exe), evs) =>
      ((run_conversion env exe input_path).1,
       evs ++ (run_conversion env exe input_path).2)

/-- Python `s.strip(c)` for a one-character set: remove every leading and
trailing occurrence of `c`. -/
def stripChar (c : Char) (s : List Char) : List Char :=
  ((s.dropWhile (fun x => x == c)).reverse.dropWhile (fun x => x == c)).reverse

/-- The double strip `main` applies to its argument: first every leading
and trailing double quote, then every leading and trailing single
quote. -/
def quoteStrip (s : List Char) : List Char := stripChar squote (stripChar dquote s)

/-- Model of `main()` reduced to its exit status: fewer than two argv entries exit
with 1; otherwise the quote-stripped argument is converted and the exit
status is 0 on success, 1 on failure; an exception escaping
`convert_video` is unhandled and aborts the run. -/
def main_run (env : Env) : List (List Char) → Except PyExn Nat × List Event
  | [] => (.ok 1, [])
  | [_] => (.ok 1, [])
  | _ :: arg :: _ =>
    match convert_video env (quoteStrip arg) with
    | (.error e, evs) => (.error e, evs)
    | (.ok b, evs) => (.ok (if b then 0 else 1), evs)

/-- Baseline concrete environment for witnesses: Windows host, empty
filesystem, probe succeeds, conversion exits 0. -/
def env0 : Env where
  platform := "Windows".data
  scriptDir := "C:\\apps".data
  pathExists := fun _ => false
  pathExistsAfterDownload := fun _ => false
  versionQuery := .ok 0
  runConvert := fun _ => .ok ⟨0, []⟩
  downloadResult := .ok ()
  extractResult := .ok ()
  listdir := []
  isdir := fun _ => false
  rmtreeResult := .ok ()
  renameResult := .ok ()
  removeResult := .ok ()

/-- Environment whose input file exists and whose conversion run exits 0. -/
def envOk : Env := { env0 with pathExists := fun _ => true }

/-- Environment whose conversion run fails with exit status 1 and a
captured diagnostic text. -/
def envFail : Env :=
  { env0 with
    pathExists := fun _ => true
    runConvert := fun _ => .ok ⟨1, "boom".data⟩ }

/-- Environment where the system-path probe raises an exception other
than the two the source catches (e.g. `PermissionError`). -/
def envPerm : Env :=
  { env0 with
    pathExists := fun _ => true
    versionQuery := .error (.otherError "EACCES".data) }

/-- Environment where the probe raises `FileNotFoundError` but a local
copy of the tool exists. -/
def envLocal : Env :=
  { env0 with
    pathExists := fun _ => true
    versionQuery := .error .fileNotFoundError }

/-- Environment where the probe raises `FileNotFoundError`, nothing is on
disk, and the download steps all succeed but extract no `ffmpeg-*`
directory. -/
def envGhost : Env := { env0 with versionQuery := .error .fileNotFoundError }

theorem rfind_ge (c : Char) (s : List Char) : -1 ≤ rfind c s := by
  induction s with
  | nil => simp [rfind]
  | cons a t ih =>
    simp only [rfind]
    split
    · omega
    · split <;> omega

theorem rfind_lt (c : Char) (s : List Char) : rfind c s < (s.length : Int) := by
  induction s with
  | nil => simp [rfind]
  | cons a t ih =>
    simp only [rfind, List.length_cons]
    push_cast
    split
    · omega
    · split <;> omega

theorem rfind_eq_neg_one (c : Char) (s : List Char) (h : c ∉ s) : rfind c s = -1 := by
  induction s with
  | nil => rfl
  | cons a t ih =>
    simp only [List.mem_cons, not_or] at h
    simp only [rfind, ih h.2]
    simp [Ne.symm h.1]

theorem rfind_append (c : Char) (xs ys : List Char) :
    rfind c (xs ++ ys) =
      if 0 ≤ rfind c ys then (xs.length : Int) + rfind c ys else rfind c xs := by
  induction xs with
  | nil =>
    have := rfind_ge c ys
    simp only [List.nil_append, List.length_nil, Nat.cast_zero, rfind]
    split <;> omega
  | cons a t ih =>
    have hys := rfind_ge c ys
    by_cases hy : 0 ≤ rfind c ys
    · have h1 : rfind c (t ++ ys) = (t.length : Int) + rfind c ys := by
        rw [ih, if_pos hy]
      simp only [List.cons_append, rfind, List.append_eq, h1, List.length_cons]
      rw [if_pos (by omega), if_pos hy]
      push_cast
      ring
    · have h1 : rfind c (t ++ ys) = rfind c t := by
        rw [ih, if_neg hy]
      simp only [List.cons_append, rfind, List.append_eq, h1, List.length_cons]
      rw [if_neg hy]

theorem rfind_last (c : Char) (xs ys : List Char) (h : c ∉ ys) :
    rfind c (xs ++ c :: ys) = (xs.length : Int) := by
  have h1 : rfind c (c :: ys) = 0 := by
    simp [rfind, rfind_eq_neg_one c ys h]
  rw [rfind_append, h1]
  simp

theorem rfind_append_right_none (c : Char) (xs ys : List Char) (h : c ∉ ys) :
    rfind c (xs ++ ys) = rfind c xs := by
  rw [rfind_append, rfind_eq_neg_one c ys h]
  simp

theorem splitextCore_split (extsep sep : Char) (d n e : List Char)
    (hn : ∃ c ∈ n, c ≠ extsep) (hde : extsep ∉ e) :
    splitextCore extsep (d.length : Int) (d ++ sep :: n ++ extsep :: e)
      = (d ++ sep :: n, extsep :: e) := by
  have hassoc : d ++ sep :: n ++ extsep :: e = (d ++ sep :: n) ++ extsep :: e := by
    simp
  have hdot : rfind extsep (d ++ sep :: n ++ extsep :: e)
      = (d.length : Int) + n.length + 1 := by
    rw [hassoc, rfind_last extsep _ _ hde]
    push_cast [List.length_append, List.length_cons]
    ring
  have hlen : (d ++ sep :: n).length = d.length + n.length + 1 := by
    simp [List.length_append, List.length_cons]
    omega
  have hdrop : (d ++ sep :: n ++ extsep :: e).drop (d.length + 1)
      = n ++ extsep :: e := by
    have hsplit : d ++ sep :: n ++ extsep :: e
        = (d ++ [sep]) ++ (n ++ extsep :: e) := by simp
    rw [hsplit]
    exact List.drop_left' (by simp)
  obtain ⟨c, hc, hcne⟩ := hn
  unfold splitextCore
  rw [hdot]
  rw [if_pos (by omega)]
  have ht1 : ((d.length : Int) + 1).toNat = d.length + 1 := by omega
  have ht2 : ((d.length : Int) + n.length + 1 - d.length - 1).toNat = n.length := by
    omega
  have ht3 : ((d.length : Int) + n.length + 1).toNat = d.length + n.length + 1 := by
    omega
  rw [ht1, ht2, ht3, hdrop, List.take_left' rfl]
  rw [if_pos (List.any_eq_true.mpr ⟨c, hc, by simpa using hcne⟩)]
  rw [hassoc, List.take_left' hlen, List.drop_left' hlen]

/-- C1: `convert_video` derives its output path by inserting the literal
suffix `_16-9` immediately before the extension.  For any directory
prefix `d` (any depth, dots allowed), base name `n` containing a non-dot
character and no separators, and extension text `e` free of dots and
separators, the computed output path of `d<sep>n.e` is exactly
`d<sep>n_16-9.e`, on both the Windows and the posix form of
`os.path.splitext`.  The derivation is a pure function of the input
path, so the same input always yields the same output name. -/
theorem c1_output_path_inserts_suffix (windows : Bool) (d n e : List Char)
    (hn : ∃ c ∈ n, c ≠ '.')
    (hn1 : '/' ∉ n) (hn2 : '\\' ∉ n)
    (he : '.' ∉ e) (he1 : '/' ∉ e) (he2 : '\\' ∉ e) :
    output_path windows (d ++ (if windows then '\\' else '/') :: n ++ '.' :: e)
      = d ++ (if windows then '\\' else '/') :: n ++ "_16-9".data ++ '.' :: e := by
  cases windows with
  | false =>
    simp only [Bool.false_eq_true, if_false, List.append_assoc, List.cons_append]
    have hsep : rfind '/' (d ++ '/' :: (n ++ '.' :: e)) = (d.length : Int) := by
      refine rfind_last '/' d (n ++ '.' :: e) ?_
      simp only [List.mem_append, List.mem_cons]
      push_neg
      exact ⟨hn1, by decide, he1⟩
    have hcore := splitextCore_split '.' '/' d n e hn he
    simp only [List.append_assoc, List.cons_append] at hcore
    have hsp : os_splitext false (d ++ '/' :: (n ++ '.' :: e))
        = (d ++ '/' :: n, '.' :: e) := by
      show splitextCore '.' (rfind '/' (d ++ '/' :: (n ++ '.' :: e)))
          (d ++ '/' :: (n ++ '.' :: e)) = _
      rw [hsep]
      exact hcore
    unfold output_path
    rw [hsp]
    simp
  | true =>
    simp only [eq_self_iff_true, if_true, List.append_assoc, List.cons_append]
    have hsep1 : rfind '\\' (d ++ '\\' :: (n ++ '.' :: e)) = (d.length : Int) := by
      refine rfind_last '\\' d (n ++ '.' :: e) ?_
      simp only [List.mem_append, List.mem_cons]
      push_neg
      exact ⟨hn2, by decide, he2⟩
    have hsep2 : rfind '/' (d ++ '\\' :: (n ++ '.' :: e)) = rfind '/' d := by
      refine rfind_append_right_none '/' d ('\\' :: (n ++ '.' :: e)) ?_
      simp only [List.mem_cons, List.mem_append]
      push_neg
      exact ⟨by decide, hn1, by decide, he1⟩
    have hcore := splitextCore_split '.' '\\' d n e hn he
    simp only [List.append_assoc, List.cons_append] at hcore
    have hsp : os_splitext true (d ++ '\\' :: (n ++ '.' :: e))
        = (d ++ '\\' :: n, '.' :: e) := by
      show splitextCore '.'
          (max (rfind '\\' (d ++ '\\' :: (n ++ '.' :: e)))
               (rfind '/' (d ++ '\\' :: (n ++ '.' :: e))))
          (d ++ '\\' :: (n ++ '.' :: e)) = _
      rw [hsep1, hsep2, max_eq_left (le_of_lt (rfind_lt '/' d))]
      exact hcore
    unfold output_path
    rw [hsp]
    simp

/-- Witness for C1 at the concrete path `movies/clip.mp4`. -/
theorem c1_witness :
    output_path false
        ("movies".data ++ (if false then '\\' else '/') :: "clip".data ++ '.' :: "mp4".data)
      = "movies".data ++ (if false then '\\' else '/') :: "clip".data
          ++ "_16-9".data ++ '.' :: "mp4".data :=
  c1_output_path_inserts_suffix false "movies".data "clip".data "mp4".data
    (by decide) (by decide) (by decide) (by decide) (by decide) (by decide)

theorem check_local_spec (env : Env) :
    (check_local env).1 = .ok none ∨
    ((check_local env).1 = .ok (some (get_ffmpeg_path env)) ∧
      (env.pathExists (get_ffmpeg_path env) = true ∨
       env.pathExistsAfterDownload (get_ffmpeg_path env) = true)) := by
  rcases hd : download_ffmpeg env with ⟨b, evs⟩
  unfold check_local
  rw [hd]
  by_cases h1 : env.pathExists (get_ffmpeg_path env) = true
  · right
    refine ⟨?_, Or.inl h1⟩
    simp [h1]
  · cases b with
    | false => left; simp [h1]
    | true =>
      by_cases h2 : env.pathExistsAfterDownload (get_ffmpeg_path env) = true
      · right
        refine ⟨?_, Or.inr h2⟩
        simp [h1, h2]
      · left
        simp [h1, h2]

theorem check_local_no_error (env : Env) (e : PyExn) :
    (check_local env).1 ≠ .error e := by
  rcases check_local_spec env with h | ⟨h, _⟩ <;> simp [h]

theorem check_ffmpeg_eq_ok0 (env : Env) (hv : env.versionQuery = .ok 0) :
    check_ffmpeg env = (.ok (some "ffmpeg".data), [.versionQueryRun]) := by
  unfold check_ffmpeg
  rw [hv]
  simp

theorem check_ffmpeg_eq_oknz (env : Env) (rc : Int)
    (hv : env.versionQuery = .ok rc) (h : rc ≠ 0) :
    check_ffmpeg env = ((check_local env).1, .versionQueryRun :: (check_local env).2) := by
  unfold check_ffmpeg
  rw [hv]
  simp [h]

theorem check_ffmpeg_eq_cpe (env : Env)
    (hv : env.versionQuery = .error .calledProcessError) :
    check_ffmpeg env = ((check_local env).1, .versionQueryRun :: (check_local env).2) := by
  unfold check_ffmpeg
  rw [hv]

theorem check_ffmpeg_eq_fnf (env : Env)
    (hv : env.versionQuery = .error .fileNotFoundError) :
    check_ffmpeg env = ((check_local env).1, .versionQueryRun :: (check_local env).2) := by
  unfold check_ffmpeg
  rw [hv]

theorem check_ffmpeg_eq_other (env : Env) (m : List Char)
    (hv : env.versionQuery = .error (.otherError m)) :
    check_ffmpeg env = (.error (.otherError m), [.versionQueryRun]) := by
  unfold check_ffmpeg
  rw [hv]

theorem check_ffmpeg_error_iff (env : Env) (e : PyExn) :
    (check_ffmpeg env).1 = .error e ↔
      (env.versionQuery = .error e ∧
       e ≠ .calledProcessError ∧ e ≠ .fileNotFoundError) := by
  cases hv : env.versionQuery with
  | ok rc =>
    by_cases hrc : rc = 0
    · subst hrc
      rw [check_ffmpeg_eq_ok0 env hv]
      simp
    · rw [check_ffmpeg_eq_oknz env rc hv hrc]
      simp [check_local_no_error env e]
  | error pe =>
    cases pe with
    | calledProcessError =>
      rw [check_ffmpeg_eq_cpe env hv]
      constructor
      · intro hL
        exact absurd hL (check_local_no_error env e)
      · rintro ⟨h1, h2, h3⟩
        injection h1 with h1
        exact absurd h1.symm h2
    | fileNotFoundError =>
      rw [check_ffmpeg_eq_fnf env hv]
      constructor
      · intro hL
        exact absurd hL (check_local_no_error env e)
      · rintro ⟨h1, h2, h3⟩
        injection h1 with h1
        exact absurd h1.symm h3
    | otherError m =>
      rw [check_ffmpeg_eq_other env m hv]
      constructor
      · intro hL
        simp only at hL
        injection hL with hL2
        subst hL2
        exact ⟨rfl, by simp, by simp⟩
      · rintro ⟨h1, h2, h3⟩
        simpa using h1

theorem run_conversion_spec (env : Env) (exe p : List Char) (r : RunResult)
    (hr : env.runConvert (mkCommand exe p (output_path (windowsEnv env) p)) = .ok r) :
    ((run_conversion env exe p).1 = .ok true ↔ r.returncode = 0) ∧
    (r.returncode = 0 →
      Event.printed ("  ".data ++ output_path (windowsEnv env) p)
        ∈ (run_conversion env exe p).2) ∧
    (r.returncode ≠ 0 →
      (run_conversion env exe p).1 = .ok false ∧
      Event.printed r.stderr ∈ (run_conversion env exe p).2) := by
  simp only [run_conversion]
  rw [hr]
  by_cases h0 : r.returncode = 0
  · simp [h0]
  · simp [h0]

theorem run_conversion_no_error (env : Env) (exe p : List Char) (e : PyExn) :
    (run_conversion env exe p).1 ≠ .error e := by
  simp only [run_conversion]
  rcases hr : env.runConvert (mkCommand exe p (output_path (windowsEnv env) p))
    with e2 | r
  · simp
  · by_cases h0 : r.returncode = 0 <;> simp [h0]

theorem convert_video_some (env : Env) (p exe : List Char)
    (hp : env.pathExists p = true)
    (hc : (check_ffmpeg env).1 = .ok (some exe)) :
    (convert_video env p).1 = (run_conversion env exe p).1 ∧
    (run_conversion env exe p).2 ⊆ (convert_video env p).2 := by
  rcases hck : check_ffmpeg env with ⟨res, evs⟩
  rw [hck] at hc
  simp only at hc
  subst hc
  unfold convert_video
  rw [hp, if_neg (by simp), hck]
  exact ⟨rfl, List.subset_append_right _ _⟩

/-- C2: when the input file does not exist, `convert_video` returns
failure immediately after printing the not-found message; its trace
contains no version query, no local-path lookup, no download attempt and
no child-process run — the existence test comes first and the external
tool is never touched. -/
theorem c2_missing_input_short_circuit (env : Env) (p : List Char)
    (h : env.pathExists p = false) :
    convert_video env p = (.ok false, [.printed (notFoundMsg p)]) ∧
    Event.versionQueryRun ∉ (convert_video env p).2 ∧
    Event.localLookup ∉ (convert_video env p).2 ∧
    Event.downloadAttempt ∉ (convert_video env p).2 ∧
    ∀ cmd, Event.convertRun cmd ∉ (convert_video env p).2 := by
  have hc : convert_video env p = (.ok false, [.printed (notFoundMsg p)]) := by
    unfold convert_video
    rw [h]
    simp
  exact ⟨hc, by simp [hc], by simp [hc], by simp [hc], fun cmd => by simp [hc]⟩

/-- Witness for C2: the empty-filesystem environment and input `x`. -/
theorem c2_witness :
    convert_video env0 "x".data = (.ok false, [.printed (notFoundMsg "x".data)]) ∧
    Event.versionQueryRun ∉ (convert_video env0 "x".data).2 ∧
    Event.localLookup ∉ (convert_video env0 "x".data).2 ∧
    Event.downloadAttempt ∉ (convert_video env0 "x".data).2 ∧
    ∀ cmd, Event.convertRun cmd ∉ (convert_video env0 "x".data).2 :=
  c2_missing_input_short_circuit env0 "x".data rfl

/-- C3: for an existing input whose tool resolution succeeded, if the
conversion child process completes with a status, `convert_video`
returns `True` exactly when that status is zero, and on status zero the
trace prints the literal computed output path (the line `  <output>`
of the source). -/
theorem c3_success_iff_zero_exit (env : Env) (p exe : List Char) (r : RunResult)
    (hp : env.pathExists p = true)
    (hc : (check_ffmpeg env).1 = .ok (some exe))
    (hr : env.runConvert (mkCommand exe p (output_path (windowsEnv env) p)) = .ok r) :
    ((convert_video env p).1 = .ok true ↔ r.returncode = 0) ∧
    (r.returncode = 0 →
      Event.printed ("  ".data ++ output_path (windowsEnv env) p)
        ∈ (convert_video env p).2) := by
  obtain ⟨heq, hsub⟩ := convert_video_some env p exe hp hc
  obtain ⟨hiff, hmem, _⟩ := run_conversion_spec env exe p r hr
  refine ⟨?_, fun h0 => hsub (hmem h0)⟩
  rw [heq]
  exact hiff

/-- Witness for C3: the environment whose child process exits 0. -/
theorem c3_witness :
    ((convert_video envOk "v.mp4".data).1 = .ok true ↔
      (RunResult.mk 0 []).returncode = 0) ∧
    ((RunResult.mk 0 []).returncode = 0 →
      Event.printed ("  ".data ++ output_path (windowsEnv envOk) "v.mp4".data)
        ∈ (convert_video envOk "v.mp4".data).2) :=
  c3_success_iff_zero_exit envOk "v.mp4".data "ffmpeg".data (RunResult.mk 0 [])
    rfl (by decide) rfl

/-- C4: for an existing input whose tool resolution succeeded, if the
conversion child process exits with a nonzero status and captured stderr
text, `convert_video` returns `False` and its trace prints that stderr
text verbatim. -/
theorem c4_failure_relays_stderr (env : Env) (p exe : List Char) (r : RunResult)
    (hp : env.pathExists p = true)
    (hc : (check_ffmpeg env).1 = .ok (some exe))
    (hr : env.runConvert (mkCommand exe p (output_path (windowsEnv env) p)) = .ok r)
    (h0 : r.returncode ≠ 0) :
    (convert_video env p).1 = .ok false ∧
    Event.printed r.stderr ∈ (convert_video env p).2 := by
  obtain ⟨heq, hsub⟩ := convert_video_some env p exe hp hc
  obtain ⟨_, _, hfail⟩ := run_conversion_spec env exe p r hr
  obtain ⟨hres, hmem⟩ := hfail h0
  exact ⟨heq.trans hres, hsub hmem⟩

/-- Witness for C4: the environment whose child process exits 1 with
stderr `boom`. -/
theorem c4_witness :
    (convert_video envFail "v.mp4".data).1 = .ok false ∧
    Event.printed (RunResult.mk 1 "boom".data).stderr
      ∈ (convert_video envFail "v.mp4".data).2 :=
  c4_failure_relays_stderr envFail "v.mp4".data "ffmpeg".data
    (RunResult.mk 1 "boom".data) rfl (by decide) rfl (by decide)

/-- C5: if the system-path version query exits 0, `check_ffmpeg` resolves
to the bare name `ffmpeg` and its trace is exactly the version query:
no local-install check and no download is attempted. -/
theorem c5_system_path_short_circuit (env : Env)
    (h : env.versionQuery = .ok 0) :
    check_ffmpeg env = (.ok (some "ffmpeg".data), [.versionQueryRun]) ∧
    Event.localLookup ∉ (check_ffmpeg env).2 ∧
    Event.downloadAttempt ∉ (check_ffmpeg env).2 := by
  have hc := check_ffmpeg_eq_ok0 env h
  exact ⟨hc, by simp [hc], by simp [hc]⟩

/-- Witness for C5: the baseline environment whose probe exits 0. -/
theorem c5_witness :
    check_ffmpeg env0 = (.ok (some "ffmpeg".data), [.versionQueryRun]) ∧
    Event.localLookup ∉ (check_ffmpeg env0).2 ∧
    Event.downloadAttempt ∉ (check_ffmpeg env0).2 :=
  c5_system_path_short_circuit env0 rfl

theorem check_local_some (env : Env) (exe : List Char)
    (h : (check_local env).1 = .ok (some exe)) :
    exe = get_ffmpeg_path env ∧
    (env.pathExists exe = true ∨ env.pathExistsAfterDownload exe = true) := by
  rcases check_local_spec env with hs | ⟨hs, hex⟩
  · rw [hs] at h
    simp at h
  · rw [hs] at h
    simp only [Except.ok.injEq, Option.some.injEq] at h
    subst h
    exact ⟨rfl, hex⟩

/-- C6 counterexample: in an environment where the system-path version
query raises `FileNotFoundError` but a file exists at the local install
path, `check_ffmpeg` hands the local path to the invoker even though no
version query ever succeeded — the executable reference was never
version-verified. -/
theorem c6_counterexample :
    (check_ffmpeg envLocal).1 = .ok (some (get_ffmpeg_path envLocal)) ∧
    get_ffmpeg_path envLocal ≠ "ffmpeg".data ∧
    envLocal.versionQuery ≠ .ok 0 := by decide

/-- C6 amended: only the bare-name reference is validated by a successful
version query; a reference resolved from the local install directory
(pre-existing or just downloaded) is validated only by a file-existence
check, and in that case the version query did not succeed. -/
theorem c6_amended_local_refs_existence_only (env : Env) (exe : List Char)
    (h : (check_ffmpeg env).1 = .ok (some exe)) :
    (exe = "ffmpeg".data ∧ env.versionQuery = .ok 0) ∨
    (exe = get_ffmpeg_path env ∧ env.versionQuery ≠ .ok 0 ∧
      (env.pathExists exe = true ∨ env.pathExistsAfterDownload exe = true)) := by
  cases hv : env.versionQuery with
  | ok rc =>
    by_cases hrc : rc = 0
    · subst hrc
      rw [check_ffmpeg_eq_ok0 env hv] at h
      simp only [Except.ok.injEq, Option.some.injEq] at h
      exact Or.inl ⟨h.symm, rfl⟩
    · rw [check_ffmpeg_eq_oknz env rc hv hrc] at h
      obtain ⟨he, hex⟩ := check_local_some env exe h
      refine Or.inr ⟨he, ?_, hex⟩
      intro hh
      injection hh with hh
      exact hrc hh
  | error pe =>
    cases pe with
    | calledProcessError =>
      rw [check_ffmpeg_eq_cpe env hv] at h
      obtain ⟨he, hex⟩ := check_local_some env exe h
      exact Or.inr ⟨he, by simp, hex⟩
    | fileNotFoundError =>
      rw [check_ffmpeg_eq_fnf env hv] at h
      obtain ⟨he, hex⟩ := check_local_some env exe h
      exact Or.inr ⟨he, by simp, hex⟩
    | otherError m =>
      rw [check_ffmpeg_eq_other env m hv] at h
      exact absurd h (by simp)

/-- Witness for the amended C6 at the local-copy environment. -/
theorem c6_amended_witness :
    (get_ffmpeg_path envLocal = "ffmpeg".data ∧ envLocal.versionQuery = .ok 0) ∨
    (get_ffmpeg_path envLocal = get_ffmpeg_path envLocal ∧
      envLocal.versionQuery ≠ .ok 0 ∧
      (envLocal.pathExists (get_ffmpeg_path envLocal) = true ∨
       envLocal.pathExistsAfterDownload (get_ffmpeg_path envLocal) = true)) :=
  c6_amended_local_refs_existence_only envLocal (get_ffmpeg_path envLocal) (by decide)

theorem convert_video_error_frame (env : Env) (p : List Char) (e : PyExn) :
    (convert_video env p).1 = .error e ↔
      (env.pathExists p = true ∧ (check_ffmpeg env).1 = .error e) := by
  by_cases hp : env.pathExists p = true
  · unfold convert_video
    rw [hp, if_neg (by simp)]
    rcases hck : check_ffmpeg env with ⟨res, evs⟩
    cases res with
    | error e2 => simp
    | ok o =>
      cases o with
      | none => simp
      | some exe =>
        simp only [Prod.fst]
        constructor
        · intro hL
          exact absurd hL (run_conversion_no_error env exe p e)
        · rintro ⟨_, h2⟩
          simp at h2
  · have hp2 : env.pathExists p = false := by
      cases hb : env.pathExists p
      · rfl
      · exact absurd hb hp
    unfold convert_video
    rw [hp2]
    simp [hp2]

/-- C7 counterexample: the system-path probe can raise an exception other
than `CalledProcessError`/`FileNotFoundError` (e.g. a permission
error); the `except` clause of `check_ffmpeg` does not name it, so it
propagates out of `convert_video` instead of being converted into a
reported failure. -/
theorem c7_counterexample :
    (convert_video envPerm "v.mp4".data).1
      = .error (.otherError "EACCES".data) := by decide

/-- C7 amended: every listed external call site except the version-query
launch is guarded against all exceptions and turns into a reported
failure; the version-query launch is guarded only against
`CalledProcessError` and `FileNotFoundError`, so an exception escapes
`convert_video` exactly when the input file exists and the version query
raises an exception of any other class. -/
theorem c7_amended_unguarded_probe_iff (env : Env) (p : List Char) (e : PyExn) :
    (convert_video env p).1 = .error e ↔
      (env.pathExists p = true ∧ env.versionQuery = .error e ∧
       e ≠ .calledProcessError ∧ e ≠ .fileNotFoundError) := by
  rw [convert_video_error_frame env p e, check_ffmpeg_error_iff env e]

/-- Witness for the amended C7 at the permission-error environment. -/
theorem c7_amended_witness :
    (convert_video envPerm "v.mp4".data).1 = .error (.otherError "EACCES".data) ↔
      (envPerm.pathExists "v.mp4".data = true ∧
       envPerm.versionQuery = .error (.otherError "EACCES".data) ∧
       PyExn.otherError "EACCES".data ≠ .calledProcessError ∧
       PyExn.otherError "EACCES".data ≠ .fileNotFoundError) :=
  c7_amended_unguarded_probe_iff envPerm "v.mp4".data (.otherError "EACCES".data)

/-- C8 counterexample: with a successful fetch, extraction and archive
deletion but no extracted `ffmpeg-*` directory, `download_ffmpeg` still
returns `True` — the install routine reports success rather than a
fetch/install failure. -/
theorem c8_counterexample :
    extracted_folders envGhost = [] ∧ (download_ffmpeg envGhost).1 = true := by
  decide

/-- C8 amended: when no extracted directory matches the expected prefix,
`download_ffmpeg` itself still returns success (silently skipping the
rename); the missing installation is detected only by its caller
`check_ffmpeg`, whose post-download existence re-check fails so the
locator returns no executable reference. -/
theorem c8_amended_missing_dir_detected_by_caller (env : Env)
    (hw : windowsEnv env = true)
    (hd : env.downloadResult = .ok ())
    (he : env.extractResult = .ok ())
    (hr : env.removeResult = .ok ())
    (hf : extracted_folders env = []) :
    (download_ffmpeg env).1 = true ∧
    (env.versionQuery = .error .fileNotFoundError →
     env.pathExists (get_ffmpeg_path env) = false →
     env.pathExistsAfterDownload (get_ffmpeg_path env) = false →
     (check_ffmpeg env).1 = .ok none) := by
  have hdl : download_ffmpeg env = (true, [.downloadAttempt]) := by
    unfold download_ffmpeg
    rw [hw]
    simp [hd, he, hf, hr]
  refine ⟨by rw [hdl], ?_⟩
  intro hv hpe hpa
  rw [check_ffmpeg_eq_fnf env hv]
  simp only [Prod.fst]
  unfold check_local
  rw [hdl]
  simp [hpe, hpa]

/-- Witness for the amended C8 at the ghost-install environment. -/
theorem c8_amended_witness :
    (download_ffmpeg envGhost).1 = true ∧
    (envGhost.versionQuery = .error .fileNotFoundError →
     envGhost.pathExists (get_ffmpeg_path envGhost) = false →
     envGhost.pathExistsAfterDownload (get_ffmpeg_path envGhost) = false →
     (check_ffmpeg envGhost).1 = .ok none) :=
  c8_amended_missing_dir_detected_by_caller envGhost rfl rfl rfl rfl rfl

theorem dropWhile_eq_self_of_head (c : Char) (xs : List Char)
    (h : xs.head? ≠ some c) :
    xs.dropWhile (fun x => x == c) = xs := by
  cases xs with
  | nil => rfl
  | cons a t =>
    have ha : a ≠ c := by
      intro hh
      exact h (by rw [hh]; rfl)
    exact List.dropWhile_cons_of_neg (by simpa using ha)

theorem stripChar_eq_self (c : Char) (p : List Char)
    (h1 : p.head? ≠ some c) (h2 : p.getLast? ≠ some c) :
    stripChar c p = p := by
  unfold stripChar
  rw [dropWhile_eq_self_of_head c p h1]
  rw [dropWhile_eq_self_of_head c p.reverse (by rw [List.head?_reverse]; exact h2)]
  exact List.reverse_reverse p

theorem stripChar_wrap (c : Char) (p : List Char)
    (h1 : p.head? ≠ some c) (h2 : p.getLast? ≠ some c) :
    stripChar c (c :: p ++ [c]) = p := by
  unfold stripChar
  simp only [List.cons_append]
  rw [List.dropWhile_cons_of_pos (by simp)]
  cases p with
  | nil => simp
  | cons a t =>
    have ha : a ≠ c := by
      intro hh
      exact h1 (by rw [hh]; rfl)
    rw [dropWhile_eq_self_of_head c ((a :: t) ++ [c]) (by simpa using ha)]
    rw [List.reverse_append]
    simp only [List.reverse_cons, List.reverse_nil, List.nil_append,
      List.singleton_append]
    rw [List.dropWhile_cons_of_pos (by simp)]
    rw [← List.reverse_cons]
    rw [dropWhile_eq_self_of_head c (a :: t).reverse
      (by rw [List.head?_reverse]; exact h2)]
    exact List.reverse_reverse _

/-- C9: a path that neither begins nor ends with a quote character is
processed identically whether supplied bare, wrapped in double quotes,
or wrapped in single quotes: the stripped argument is the same path in
all three forms, so `main` passes the same input to `convert_video` and
the whole run has the same outcome. -/
theorem c9_quotes_stripped_identically (env : Env) (s p : List Char)
    (h1 : p.head? ≠ some dquote) (h2 : p.head? ≠ some squote)
    (h3 : p.getLast? ≠ some dquote) (h4 : p.getLast? ≠ some squote) :
    quoteStrip (dquote :: p ++ [dquote]) = p ∧
    quoteStrip (squote :: p ++ [squote]) = p ∧
    quoteStrip p = p ∧
    main_run env [s, dquote :: p ++ [dquote]] = main_run env [s, p] ∧
    main_run env [s, squote :: p ++ [squote]] = main_run env [s, p] := by
  have e1 : quoteStrip (dquote :: p ++ [dquote]) = p := by
    unfold quoteStrip
    rw [stripChar_wrap dquote p h1 h3]
    exact stripChar_eq_self squote p h2 h4
  have e2 : quoteStrip (squote :: p ++ [squote]) = p := by
    have hA : (squote :: p ++ [squote]).head? ≠ some dquote := by
      simp only [List.cons_append, List.head?_cons, ne_eq, Option.some.injEq]
      decide
    have hB : (squote :: p ++ [squote]).getLast? ≠ some dquote := by
      rw [show squote :: p ++ [squote] = (squote :: p) ++ [squote] from rfl,
        List.getLast?_concat]
      simp only [ne_eq, Option.some.injEq]
      decide
    unfold quoteStrip
    rw [stripChar_eq_self dquote (squote :: p ++ [squote]) hA hB]
    exact stripChar_wrap squote p h2 h4
  have e3 : quoteStrip p = p := by
    unfold quoteStrip
    rw [stripChar_eq_self dquote p h1 h3]
    exact stripChar_eq_self squote p h2 h4
  refine ⟨e1, e2, e3, ?_, ?_⟩
  · simp only [main_run]
    rw [e1, e3]
  · simp only [main_run]
    rw [e2, e3]

/-- Witness for C9 at the unquoted path `a.mp4`. -/
theorem c9_witness :
    quoteStrip (dquote :: "a.mp4".data ++ [dquote]) = "a.mp4".data ∧
    quoteStrip (squote :: "a.mp4".data ++ [squote]) = "a.mp4".data ∧
    quoteStrip "a.mp4".data = "a.mp4".data ∧
    main_run env0 ["s".data, dquote :: "a.mp4".data ++ [dquote]]
      = main_run env0 ["s".data, "a.mp4".data] ∧
    main_run env0 ["s".data, squote :: "a.mp4".data ++ [squote]]
      = main_run env0 ["s".data, "a.mp4".data] :=
  c9_quotes_stripped_identically env0 "s".data "a.mp4".data
    (by decide) (by decide) (by decide) (by decide)

/-- C10: whenever `check_ffmpeg` returns (rather than raising), its value
is `None`, the bare name `ffmpeg` backed by a zero-exit version query,
or the local install path backed by a file-existence check made at the
moment of resolution — in particular, a download reported successful
without an actual installation yields `None`, never a dangling path. -/
theorem c10_check_ffmpeg_trichotomy (env : Env) (r : Option (List Char))
    (h : (check_ffmpeg env).1 = .ok r) :
    r = none ∨
    (r = some "ffmpeg".data ∧ env.versionQuery = .ok 0) ∨
    (r = some (get_ffmpeg_path env) ∧
      (env.pathExists (get_ffmpeg_path env) = true ∨
       env.pathExistsAfterDownload (get_ffmpeg_path env) = true)) := by
  cases hv : env.versionQuery with
  | ok rc =>
    by_cases hrc : rc = 0
    · subst hrc
      rw [check_ffmpeg_eq_ok0 env hv] at h
      simp only [Except.ok.injEq] at h
      exact Or.inr (Or.inl ⟨h.symm, rfl⟩)
    · rw [check_ffmpeg_eq_oknz env rc hv hrc] at h
      rcases check_local_spec env with hs | ⟨hs, hex⟩
      · rw [hs] at h
        simp only [Except.ok.injEq] at h
        exact Or.inl h.symm
      · rw [hs] at h
        simp only [Except.ok.injEq] at h
        exact Or.inr (Or.inr ⟨h.symm, hex⟩)
  | error pe =>
    cases pe with
    | calledProcessError =>
      rw [check_ffmpeg_eq_cpe env hv] at h
      rcases check_local_spec env with hs | ⟨hs, hex⟩
      · rw [hs] at h
        simp only [Except.ok.injEq] at h
        exact Or.inl h.symm
      · rw [hs] at h
        simp only [Except.ok.injEq] at h
        exact Or.inr (Or.inr ⟨h.symm, hex⟩)
    | fileNotFoundError =>
      rw [check_ffmpeg_eq_fnf env hv] at h
      rcases check_local_spec env with hs | ⟨hs, hex⟩
      · rw [hs] at h
        simp only [Except.ok.injEq] at h
        exact Or.inl h.symm
      · rw [hs] at h
        simp only [Except.ok.injEq] at h
        exact Or.inr (Or.inr ⟨h.symm, hex⟩)
    | otherError m =>
      rw [check_ffmpeg_eq_other env m hv] at h
      exact absurd h (by simp)

/-- Witness for C10 at the ghost-install environment, which resolves to
`None`. -/
theorem c10_witness :
    (none : Option (List Char)) = none ∨
    ((none : Option (List Char)) = some "ffmpeg".data ∧
      envGhost.versionQuery = .ok 0) ∨
    ((none : Option (List Char)) = some (get_ffmpeg_path envGhost) ∧
      (envGhost.pathExists (get_ffmpeg_path envGhost) = true ∨
       envGhost.pathExistsAfterDownload (get_ffmpeg_path envGhost) = true)) :=
  c10_check_ffmpeg_trichotomy envGhost none (by decide)
